import Mathlib

/-!
Shallow embedding of the zoom-translator server core (src/server.py,
src/pipeline/asr.py, src/pipeline/translator.py, src/pipeline/tts.py,
src/recall_client.py) and proofs about it.

Conventions of the embedding:
* Python dicts become association lists with unique keys (dict insert
  replaces in place, dict pop becomes a filter on the key).
* Outbound calls (Recall.ai, Supabase, OpenAI, listener sends) become
  elements of an `Effect` list returned next to the new state.
* Fallible collaborator calls (httpx posts, the OpenAI TTS call) are
  passed in as `Except` values: `.error` models a raised exception,
  `.ok` a returned response.
* The JSONL transcript buffer and the SRT subtitle buffer, strings in
  the source, are modelled as lists of the records serialized into them.
* Floats (audio offsets, durations) are modelled as rationals.
-/

/-- Outbound side effects performed by the server core. -/
inductive Effect
  | leaveCall (bot_id : String)
  | cancelTask (participant_id : String)
  | exitCtx (participant_id : String)
  | uploadClip (user_id bot_id : String) (n : Nat)
  | uploadText (user_id bot_id fname : String)
  | updateStatus (bot_id status : String)
  | createSessionDb (user_id bot_id : String)
  | sendError (msg : String)
  | synthCall (text lang : String)
  | broadcastClip (lang : String) (mp3 : List Nat)
  | startASR (participant_id lang : String)
  | sendAudio (participant_id : String)
deriving DecidableEq

/-- State of one `ASRStream` (pipeline/asr.py): the `_listen_task`,
`_ctx` and `_socket` attributes, each `none` when the Python attribute
is `None`. -/
structure ASRState where
  participant_id : String
  listen_task : Option Unit := none
  ctx : Option Unit := none
  socket : Option Unit := none
deriving DecidableEq

/-- `ASRStream.close` (pipeline/asr.py): cancel the listen task if any,
exit the connection context if any (which also clears the socket), and
null both attributes. Returns the new state and the effects performed. -/
def closeASR (a : ASRState) : ASRState × List Effect :=
  let taskEffs := if a.listen_task.isSome then [Effect.cancelTask a.participant_id] else []
  let ctxEffs := if a.ctx.isSome then [Effect.exitCtx a.participant_id] else []
  let sock := if a.ctx.isSome then none else a.socket
  ({ a with listen_task := none, ctx := none, socket := sock }, taskEffs ++ ctxEffs)

/-- Effects of closing every ASR stream of a session, in map order
(the loop over `session.asr_streams` in `_handle_stop`). -/
def closeAllStreams : List (String × ASRState) → List Effect
  | [] => []
  | (_, a) :: rest => (closeASR a).2 ++ closeAllStreams rest

/-- One SRT subtitle block appended to `session.srt_buffer`. -/
structure SrtCue where
  n : Nat
  start : ℚ
  stop : ℚ
  text : String
deriving DecidableEq

/-- One JSONL line appended to `session.transcript_buffer`. -/
structure TranscriptEntry where
  n : Nat
  audio_start : ℚ
  audio_end : ℚ
  original : String
  translated : String
deriving DecidableEq

/-- The `BotSession` dataclass (server.py), with the dataclass field
defaults. -/
structure BotSession where
  bot_id : String
  meeting_url : String
  source_lang : String
  target_lang : String
  user_id : String := ""
  status : String := "starting"
  asr_streams : List (String × ASRState) := []
  clip_count : Nat := 0
  audio_offset : ℚ := 0
  srt_buffer : List SrtCue := []
  transcript_buffer : List TranscriptEntry := []
deriving DecidableEq

/-- The `BotSession` constructed in `_handle_start` after a successful
`create_bot` call. -/
def mkStartSession (bot_id meeting_url source_lang target_lang user_id : String) :
    BotSession :=
  { bot_id := bot_id, meeting_url := meeting_url, source_lang := source_lang,
    target_lang := target_lang, user_id := user_id, status := "in_call" }

/-- `config.TARGET_LANGUAGE` (config.py), with its documented default. -/
def targetLanguageDefault : String := "en"

/-- The fallback `BotSession` synthesized by `recall_handler` (server.py)
for a bot id that has no registry entry: all fields not passed keep the
dataclass defaults, so in particular `user_id` stays `""`. -/
def fallbackSession (incoming_bot_id : String) : BotSession :=
  { bot_id := incoming_bot_id, meeting_url := "", source_lang := "es",
    target_lang := targetLanguageDefault, status := "in_call" }

/-- Estimated clip duration in `save_recording` (server.py):
`len(mp3_bytes) / 8000.0`. -/
def clipDuration (mp3_len : Nat) : ℚ := (mp3_len : ℚ) / 8000

/-- `save_recording` (server.py): bump the clip counter, upload the clip
under the new sequence number, advance the audio offset by the estimated
duration, and append one SRT cue and one transcript entry whose start is
the offset before the append and whose end is the offset after. -/
def saveRecording (s : BotSession) (mp3_len : Nat) (original translated : String) :
    BotSession × List Effect :=
  let n := s.clip_count + 1
  let d := clipDuration mp3_len
  let start := s.audio_offset
  let stop := start + d
  ({ s with
      clip_count := n,
      audio_offset := stop,
      srt_buffer := s.srt_buffer ++ [⟨n, start, stop, translated⟩],
      transcript_buffer := s.transcript_buffer ++ [⟨n, start, stop, original, translated⟩] },
   [Effect.uploadClip s.user_id s.bot_id n, Effect.updateStatus s.bot_id "in_call"])

/-- Run `save_recording` over a list of clips, each given as
(mp3 byte length, original text, translated text). -/
def recordClips (s : BotSession) : List (Nat × String × String) → BotSession
  | [] => s
  | (len, o, t) :: rest => recordClips (saveRecording s len o t).1 rest

/-- The transcript entries starting at offset `off` carry sequence
numbers `k, k+1, ...` and chain: each entry starts where the previous
one ended (the first at `off`). -/
def chainedFrom (off : ℚ) (k : Nat) : List TranscriptEntry → Bool
  | [] => true
  | e :: rest => e.n == k && e.audio_start == off && chainedFrom e.audio_end (k + 1) rest

/-- Final audio offset after the given transcript entries, starting
from `off`. -/
def endOffset (off : ℚ) : List TranscriptEntry → ℚ
  | [] => off
  | e :: rest => endOffset e.audio_end rest

/-- Python `str.startswith(pre)`: the characters of `pre` are a prefix
of the characters of the string. -/
def pyStartsWith (s pre : String) : Bool := pre.data.isPrefixOf s.data

/-- Python `str.lower()`: lowercase every character. -/
def pyLower (s : String) : String := ⟨s.data.map Char.toLower⟩

/-- The fields of a successful DeepL response body that `translate`
(pipeline/translator.py) reads: HTTP status, translated text, and the
reported `detected_source_language`. -/
structure DeepLResponse where
  status : Nat
  text : String
  detected : String
deriving DecidableEq

/-- `translate` (pipeline/translator.py) applied to a received HTTP
response: a non-200 status yields `none` (failure logged, swallowed);
a detected source language that, lowercased, equals the target language
yields `none` (translation skipped); otherwise the translated text. -/
def translateFromResponse (resp : DeepLResponse) (target_lang : String) : Option String :=
  if resp.status ≠ 200 then none
  else if pyLower resp.detected == target_lang then none
  else some resp.text

/-- MP3 payload bytes returned by the TTS collaborator. -/
abbrev Mp3 := List Nat

/-- The `on_utterance` closure built by `make_on_utterance` (server.py).
`transO` is the outcome of the `translate` call: `.error` models a
raised exception inside `translate`, `.ok resp` a received HTTP
response. `synthO` is the outcome of the `synthesize` call (tts.py has
no exception handling, so `.error` propagates). The result is `.error`
when the callback raises to its caller (the ASR listener task),
otherwise the updated session and the effects performed. -/
def onUtterance (s : BotSession) (transO : Except Unit DeepLResponse)
    (synthO : Except Unit Mp3) (origText : String) :
    Except Unit (BotSession × List Effect) :=
  match transO with
  | .error e => .error e
  | .ok resp =>
    match translateFromResponse resp s.target_lang with
    | none => .ok (s, [])
    | some translated =>
      match synthO with
      | .error e => .error e
      | .ok mp3 =>
        let saved := saveRecording s mp3.length origText translated
        .ok (saved.1,
          Effect.synthCall translated s.target_lang
            :: Effect.broadcastClip s.target_lang mp3
            :: saved.2)

/-- One finalized utterance delivered to `on_utterance`, together with
the outcomes of the collaborator calls it will make. -/
structure UtterInput where
  transO : Except Unit DeepLResponse
  synthO : Except Unit Mp3
  text : String

/-- Sequential processing of finalized utterances by one ASR stream's
listener task. An exception raised out of `on_utterance` kills the
listener task (`Bool` result `false`): the remaining utterances are
never processed. -/
def runUtterances (s : BotSession) : List UtterInput → BotSession × Bool
  | [] => (s, true)
  | u :: rest =>
    match onUtterance s u.transO u.synthO u.text with
    | .error _ => (s, false)
    | .ok (s', _) => runUtterances s' rest

/-- The module-level `bot_sessions` dict (server.py), bot id → session. -/
structure ServerState where
  sessions : List (String × BotSession)
deriving DecidableEq

/-- `bot_sessions.get(bot_id)`. -/
def lookupSession (st : ServerState) (bot_id : String) : Option BotSession :=
  (st.sessions.find? (fun e => e.1 == bot_id)).map (fun e => e.2)

/-- `bot_sessions[bot_id] = session`: replace in place, or append. -/
def dictInsert : List (String × BotSession) → String → BotSession → List (String × BotSession)
  | [], k, v => [(k, v)]
  | (k', v') :: rest, k, v =>
    if k' == k then (k, v) :: rest else (k', v') :: dictInsert rest k v

/-- Outcome of `_handle_stop` (server.py). -/
inductive StopOutcome
  | notFound
  | forbidden
  | stopped
deriving DecidableEq

/-- Result of `_handle_stop`: its outcome, the registry afterwards, and
the effects performed. -/
structure StopResult where
  outcome : StopOutcome
  state : ServerState
  effects : List Effect
deriving DecidableEq

/-- `_handle_stop` (server.py): unknown bot id → error message, registry
untouched; requester is not the owner → error message, registry
untouched; otherwise tell the bot to leave, close every ASR stream,
upload the non-empty recording buffers, mark the DB row stopped and pop
the session from the registry. -/
def handleStop (st : ServerState) (bot_id user_id : String) : StopResult :=
  match lookupSession st bot_id with
  | none => ⟨.notFound, st, [Effect.sendError ("Unknown bot: " ++ bot_id)]⟩
  | some session =>
    if session.user_id == user_id then
      ⟨.stopped,
        ⟨st.sessions.filter (fun e => !(e.1 == bot_id))⟩,
        [Effect.leaveCall bot_id]
          ++ closeAllStreams session.asr_streams
          ++ (if session.srt_buffer.isEmpty then []
              else [Effect.uploadText session.user_id bot_id "subtitles.srt"])
          ++ (if session.transcript_buffer.isEmpty then []
              else [Effect.uploadText session.user_id bot_id "transcript.jsonl"])
          ++ [Effect.updateStatus bot_id "stopped"]⟩
    else
      ⟨.forbidden, st, [Effect.sendError "Not authorized to stop this bot"]⟩

/-- One management snapshot row (`_sessions_snapshot`, server.py). -/
structure SessionView where
  bot_id : String
  meeting_url : String
  source_lang : String
  target_lang : String
  status : String
  clip_count : Nat
deriving DecidableEq

/-- `_sessions_snapshot` (server.py): the sessions whose `user_id`
equals the requesting management client's user id. -/
def sessionsSnapshot (st : ServerState) (user_id : String) : List SessionView :=
  (st.sessions.filter (fun e => e.2.user_id == user_id)).map
    (fun e => ⟨e.2.bot_id, e.2.meeting_url, e.2.source_lang, e.2.target_lang,
               e.2.status, e.2.clip_count⟩)

/-- One iteration of the target-language loop in `_handle_start`
(server.py). `botResult` is the outcome of the `create_bot` call:
`.error` models any raised exception (caught by the loop body's
`except`, which sends an error message and creates nothing), `.ok` the
returned bot id, after which the session is inserted and persisted. -/
def startOne (st : ServerState) (user_id meeting_url source_lang target_lang : String)
    (botResult : Except String String) : ServerState × List Effect :=
  match botResult with
  | .error e =>
    (st, [Effect.sendError ("Failed to create bot for " ++ target_lang.toUpper ++ ": " ++ e)])
  | .ok bot_id =>
    (⟨dictInsert st.sessions bot_id
        (mkStartSession bot_id meeting_url source_lang target_lang user_id)⟩,
     [Effect.createSessionDb user_id bot_id])

/-- The whole target-language loop of `_handle_start`, given each
target language with the outcome of its `create_bot` call. -/
def handleStart (st : ServerState) (user_id meeting_url source_lang : String) :
    List (String × Except String String) → ServerState × List Effect
  | [] => (st, [])
  | (tl, r) :: rest =>
    let step := startOne st user_id meeting_url source_lang tl r
    let next := handleStart step.1 user_id meeting_url source_lang rest
    (next.1, step.2 ++ next.2)

/-- Keyword parameter names accepted by `ASRStream.__init__`
(pipeline/asr.py): only `participant_id` and `on_utterance`. -/
def asrInitParamNames : List String := ["participant_id", "on_utterance"]

/-- Keyword argument names used at the `ASRStream(...)` construction
site in `recall_handler` (server.py line 516). -/
def recallASRCallKeywordNames : List String := ["source_lang"]

/-- The `language` configuration value hardcoded in `ASRStream.start`
(pipeline/asr.py line 42). -/
def asrStartLanguage : String := "es"

/-- Handling of one `audio_separate_raw.data` event for a bound session
(`recall_handler`, server.py): drop the chunk if the participant name
starts with "Translator" or the buffer is empty; otherwise create an
ASR stream for a new participant (started with the hardcoded language)
and forward the audio to the participant's stream. -/
def handleAudioChunk (session : BotSession) (participant_id participant_name audio_b64 : String) :
    BotSession × List Effect :=
  if pyStartsWith participant_name "Translator" then (session, [])
  else if audio_b64 == "" then (session, [])
  else
    match session.asr_streams.find? (fun e => e.1 == participant_id) with
    | some _ => (session, [Effect.sendAudio participant_id])
    | none =>
      let a : ASRState :=
        { participant_id := participant_id, listen_task := some (),
          ctx := some (), socket := some () }
      ({ session with asr_streams := session.asr_streams ++ [(participant_id, a)] },
       [Effect.startASR participant_id asrStartLanguage, Effect.sendAudio participant_id])

/-- The module-level `listener_clients` dict (server.py): target
language → connected listener ids. -/
abbrev ListenerReg := List (String × List Nat)

/-- `listener_clients.get(lang, set())`. -/
def regLookup : ListenerReg → String → List Nat
  | [], _ => []
  | (l, cs) :: rest, lang => if l == lang then cs else regLookup rest lang

/-- `listener_clients[lang].add(ws)` (creating the entry if missing). -/
def regAdd : ListenerReg → String → Nat → ListenerReg
  | [], lang, cid => [(lang, [cid])]
  | (l, cs) :: rest, lang, cid =>
    if l == lang then (l, cid :: cs) :: rest else (l, cs) :: regAdd rest lang cid

/-- `listener_clients.get(lang, set()).discard(ws)`. -/
def regRemove : ListenerReg → String → Nat → ListenerReg
  | [], _, _ => []
  | (l, cs) :: rest, lang, cid =>
    if l == lang then (l, cs.filter (fun x => x != cid)) :: rest
    else (l, cs) :: regRemove rest lang cid

/-- Number of language sets a connection currently belongs to. -/
def countSets : ListenerReg → Nat → Nat
  | [], _ => 0
  | (_, cs) :: rest, cid => (if cid ∈ cs then 1 else 0) + countSets rest cid

/-- Listener registry events: `listen_handler` adding a fresh connection
on accept, and removing it in its `finally` block. -/
inductive LEvent
  | connect (cid : Nat) (lang : String)
  | disconnect (cid : Nat) (lang : String)

/-- Registry transition for one event. -/
def lstep (reg : ListenerReg) : LEvent → ListenerReg
  | .connect cid lang => regAdd reg lang cid
  | .disconnect cid lang => regRemove reg lang cid

/-- Run a sequence of listener events. -/
def runListeners (reg : ListenerReg) : List LEvent → ListenerReg
  | [] => reg
  | e :: es => runListeners (lstep reg e) es

/-- A run is fresh when every connect event carries a connection id
currently in no set — which holds of the real server, where each
accepted WebSocket is a new object and `listen_handler` runs once per
connection, adding it to exactly one language's set. -/
def freshRun (reg : ListenerReg) : List LEvent → Bool
  | [] => true
  | LEvent.connect cid lang :: es =>
    countSets reg cid == 0 && freshRun (regAdd reg lang cid) es
  | LEvent.disconnect cid lang :: es => freshRun (regRemove reg lang cid) es

/-- `broadcast_audio` (server.py) sends the clip exactly to
`listener_clients.get(lang, set())`. -/
def broadcastTargets (reg : ListenerReg) (lang : String) : List Nat :=
  regLookup reg lang

/-- A registry with one session owned by user "u1", as left by a
successful start request. -/
def exState : ServerState := ⟨[("b1", mkStartSession "b1" "url" "en" "es" "u1")]⟩

/-- A run with one Spanish listener and one French listener. -/
def exListenerEvents : List LEvent := [.connect 1 "es", .connect 2 "fr"]

/-- Recording invariant of a session: its transcript entries are
numbered 1, 2, ... and chain from offset 0, the clip counter equals the
number of entries, and the audio offset is the last entry's end. -/
def recInv (s : BotSession) : Prop :=
  chainedFrom 0 1 s.transcript_buffer = true ∧
  s.clip_count = s.transcript_buffer.length ∧
  s.audio_offset = endOffset 0 s.transcript_buffer

theorem endOffset_snoc (l : List TranscriptEntry) (off : ℚ) (e : TranscriptEntry) :
    endOffset off (l ++ [e]) = e.audio_end := by
  induction l generalizing off with
  | nil => rfl
  | cons x xs ih => simpa [endOffset] using ih x.audio_end

theorem chainedFrom_snoc (l : List TranscriptEntry) (off : ℚ) (k : Nat)
    (e : TranscriptEntry) (h : chainedFrom off k l = true)
    (hn : e.n = k + l.length) (hs : e.audio_start = endOffset off l) :
    chainedFrom off k (l ++ [e]) = true := by
  induction l generalizing off k with
  | nil =>
    simp only [List.length_nil, Nat.add_zero] at hn
    simp only [endOffset] at hs
    simp only [chainedFrom, List.nil_append, Bool.and_eq_true, beq_iff_eq]
    exact ⟨⟨hn, hs⟩, trivial⟩
  | cons x xs ih =>
    simp only [chainedFrom, List.cons_append, Bool.and_eq_true, beq_iff_eq] at h ⊢
    obtain ⟨⟨h1, h2⟩, h3⟩ := h
    refine ⟨⟨h1, h2⟩, ih x.audio_end (k + 1) h3 ?_ ?_⟩
    · simp only [List.length_cons] at hn; omega
    · simpa [endOffset] using hs

theorem saveRecording_recInv (s : BotSession) (len : Nat) (o t : String)
    (h : recInv s) : recInv (saveRecording s len o t).1 := by
  obtain ⟨h1, h2, h3⟩ := h
  unfold recInv saveRecording
  refine ⟨?_, ?_, ?_⟩
  · exact chainedFrom_snoc _ 0 1 _ h1 (by simp; omega) h3
  · simp [h2]
  · simp [endOffset_snoc]

theorem recordClips_recInv (inputs : List (Nat × String × String)) (s : BotSession)
    (h : recInv s) : recInv (recordClips s inputs) := by
  induction inputs generalizing s with
  | nil => exact h
  | cons c rest ih =>
    obtain ⟨len, o, t⟩ := c
    exact ih _ (saveRecording_recInv s len o t h)

/-- C4: for any sequence of recorded clips, the transcript entries of
the resulting session carry sequence numbers exactly 1..N with no gaps,
the first entry's audio start is 0, each later entry starts where the
previous one ended (all forced by `chainedFrom 0 1`), the clip counter
equals N, and each individual append gives the new clip the session's
audio offset before the append as its start and the offset after as its
end. -/
theorem clip_sequence_chained :
    (∀ (bot_id meeting_url source_lang target_lang user_id : String)
        (inputs : List (Nat × String × String)),
      chainedFrom 0 1
        (recordClips (mkStartSession bot_id meeting_url source_lang target_lang user_id)
          inputs).transcript_buffer = true ∧
      (recordClips (mkStartSession bot_id meeting_url source_lang target_lang user_id)
          inputs).clip_count =
        (recordClips (mkStartSession bot_id meeting_url source_lang target_lang user_id)
          inputs).transcript_buffer.length) ∧
    (∀ (s : BotSession) (len : Nat) (o t : String),
      (saveRecording s len o t).1.transcript_buffer =
        s.transcript_buffer ++
          [⟨s.clip_count + 1, s.audio_offset, s.audio_offset + clipDuration len, o, t⟩] ∧
      (saveRecording s len o t).1.audio_offset = s.audio_offset + clipDuration len) := by
  constructor
  · intro bid mu sl tl uid inputs
    have h := recordClips_recInv inputs (mkStartSession bid mu sl tl uid)
      (by exact ⟨rfl, rfl, rfl⟩)
    exact ⟨h.1, h.2.1⟩
  · intro s len o t
    exact ⟨rfl, rfl⟩

theorem lookupSession_filter_self (l : List (String × BotSession)) (b : String) :
    lookupSession ⟨l.filter (fun e => !(e.1 == b))⟩ b = none := by
  unfold lookupSession
  rw [List.find?_eq_none.mpr]
  · rfl
  · intro x hx
    have hp := List.of_mem_filter hx
    simp at hp ⊢
    exact hp

theorem handleStop_on_absent (st : ServerState) (b u : String)
    (h : lookupSession st b = none) :
    handleStop st b u = ⟨.notFound, st, [Effect.sendError ("Unknown bot: " ++ b)]⟩ := by
  unfold handleStop
  rw [h]

theorem handleStop_forbidden_of_ne (st : ServerState) (b u : String) (s : BotSession)
    (hl : lookupSession st b = some s) (hu : s.user_id ≠ u) :
    handleStop st b u =
      ⟨.forbidden, st, [Effect.sendError "Not authorized to stop this bot"]⟩ := by
  unfold handleStop
  rw [hl]
  simp [hu]

theorem handleStop_owner_state (st : ServerState) (b u : String) (s : BotSession)
    (hl : lookupSession st b = some s) (hu : s.user_id = u) :
    (handleStop st b u).state = ⟨st.sessions.filter (fun e => !(e.1 == b))⟩ := by
  unfold handleStop
  rw [hl]
  simp [hu]

theorem handleStop_stopped_state (st : ServerState) (b u : String)
    (h : (handleStop st b u).outcome = StopOutcome.stopped) :
    (handleStop st b u).state = ⟨st.sessions.filter (fun e => !(e.1 == b))⟩ := by
  cases hl : lookupSession st b with
  | none => rw [handleStop_on_absent st b u hl] at h; simp at h
  | some s =>
    by_cases hu : s.user_id = u
    · exact handleStop_owner_state st b u s hl hu
    · rw [handleStop_forbidden_of_ne st b u s hl hu] at h; simp at h

/-- C5: after a completed stop for a session, a second stop request for
the same bot id finds no session (NotFound), leaves the registry
untouched, and performs only the error send — no adapter close, no
buffer flush; and closing an already-closed `ASRStream` changes nothing
and performs no effects. -/
theorem stop_twice_notfound_close_noop :
    (∀ (st : ServerState) (b u u2 : String),
        (handleStop st b u).outcome = StopOutcome.stopped →
        handleStop (handleStop st b u).state b u2 =
          ⟨.notFound, (handleStop st b u).state,
           [Effect.sendError ("Unknown bot: " ++ b)]⟩) ∧
    (∀ a : ASRState, closeASR (closeASR a).1 = ((closeASR a).1, [])) := by
  constructor
  · intro st b u u2 h
    rw [handleStop_stopped_state st b u h]
    exact handleStop_on_absent _ b u2 (lookupSession_filter_self _ b)
  · intro a
    obtain ⟨pid, lt, c, so⟩ := a
    cases lt <;> cases c <;> rfl

theorem stop_twice_witness :
    handleStop (handleStop exState "b1" "u1").state "b1" "u2" =
      ⟨.notFound, (handleStop exState "b1" "u1").state,
       [Effect.sendError ("Unknown bot: " ++ "b1")]⟩ :=
  stop_twice_notfound_close_noop.1 exState "b1" "u1" "u2" (by decide)

/-- C6: a stop request from a requester who is not the session's owner
is rejected with the Forbidden error message, the registry (hence the
session's status, adapter map, counters and buffers, and its presence
in the registry) is exactly what it was, and the only effect is the
error send — in particular the bot-hosting collaborator is not told to
leave. -/
theorem stop_forbidden_unchanged (st : ServerState) (b u : String) (s : BotSession)
    (hl : lookupSession st b = some s) (hu : s.user_id ≠ u) :
    handleStop st b u =
      ⟨.forbidden, st, [Effect.sendError "Not authorized to stop this bot"]⟩ :=
  handleStop_forbidden_of_ne st b u s hl hu

theorem stop_forbidden_witness :
    handleStop exState "b1" "intruder" =
      ⟨.forbidden, exState, [Effect.sendError "Not authorized to stop this bot"]⟩ :=
  stop_forbidden_unchanged exState "b1" "intruder"
    (mkStartSession "b1" "url" "en" "es" "u1") (by decide) (by decide)

/-- C1 (failing input evaluated): the keyword argument `source_lang`
passed at the `ASRStream(...)` construction site in `recall_handler` is
not among the parameters `ASRStream.__init__` accepts (the call raises
TypeError), and even apart from that, the language `ASRStream.start`
sends upstream is the hardcoded "es", not the session's source language
(here "en"). -/
theorem asr_start_language_not_session_source :
    (recallASRCallKeywordNames.all (fun k => asrInitParamNames.contains k)) = false ∧
    asrStartLanguage ≠ (mkStartSession "b1" "url" "en" "fr" "u1").source_lang ∧
    (handleAudioChunk (mkStartSession "b1" "url" "en" "fr" "u1") "p1" "Alice" "QUJD").2 =
      [Effect.startASR "p1" asrStartLanguage, Effect.sendAudio "p1"] := by
  refine ⟨by decide, by decide, rfl⟩

/-- C2 as amended: a failure of the translation step that the
translator reports by returning no translation (`translate` returns
None, e.g. on a non-200 response) yields only "no clip produced for
this utterance": the utterance callback returns without raising, the
session is unchanged, no effect is performed, and the stream's listener
task processes the subsequent utterances exactly as if the failed one
had not occurred. -/
theorem translation_reported_failure_isolated (s : BotSession)
    (resp : DeepLResponse) (orig : String) (synthO : Except Unit Mp3)
    (rest : List UtterInput)
    (h : translateFromResponse resp s.target_lang = none) :
    onUtterance s (.ok resp) synthO orig = .ok (s, []) ∧
    runUtterances s (⟨.ok resp, synthO, orig⟩ :: rest) = runUtterances s rest := by
  have h1 : onUtterance s (.ok resp) synthO orig = .ok (s, []) := by
    simp only [onUtterance, h]
  exact ⟨h1, by simp [runUtterances, h1]⟩

theorem translation_reported_failure_witness :
    onUtterance (mkStartSession "b1" "url" "en" "es" "u1")
        (.ok ⟨500, "x", "EN"⟩) (.error ()) "hello" =
      .ok (mkStartSession "b1" "url" "en" "es" "u1", []) ∧
    runUtterances (mkStartSession "b1" "url" "en" "es" "u1")
        (⟨.ok ⟨500, "x", "EN"⟩, .error (), "hello"⟩ :: []) =
      runUtterances (mkStartSession "b1" "url" "en" "es" "u1") [] :=
  translation_reported_failure_isolated (mkStartSession "b1" "url" "en" "es" "u1")
    ⟨500, "x", "EN"⟩ "hello" (.error ()) [] (by rfl)

/-- C2, the claim as stated, is false: for an utterance whose
translation succeeds but whose synthesis call fails, `on_utterance`
raises to its caller (there is no exception handling around
`synthesize` in `make_on_utterance`), and the ASR stream's listener
task dies, leaving later utterances unprocessed. -/
theorem synthesis_failure_raises :
    onUtterance (mkStartSession "b1" "url" "en" "es" "u1")
        (.ok ⟨200, "hola", "EN"⟩) (.error ()) "hello" = .error () ∧
    (runUtterances (mkStartSession "b1" "url" "en" "es" "u1")
        [⟨.ok ⟨200, "hola", "EN"⟩, .error (), "hello"⟩,
         ⟨.ok ⟨200, "hola dos", "EN"⟩, .ok [1, 2], "hello two"⟩]).2 = false :=
  ⟨rfl, rfl⟩

/-- C3: when the translation response reports a detected source
language equal (after the lowercasing `translate` applies) to the
session's target language, `on_utterance` returns the session exactly
as it was — clip counter, audio offset, subtitle and transcript buffers
untouched — and performs no effect: no synthesis call, no fan-out, no
storage write. -/
theorem translation_noop_no_clip (s : BotSession) (resp : DeepLResponse)
    (synthO : Except Unit Mp3) (orig : String)
    (hdet : pyLower resp.detected = s.target_lang) :
    onUtterance s (.ok resp) synthO orig = .ok (s, []) := by
  have h : translateFromResponse resp s.target_lang = none := by
    unfold translateFromResponse
    split
    · rfl
    · simp [hdet]
  simp only [onUtterance, h]

theorem translation_noop_witness :
    onUtterance (mkStartSession "b1" "url" "en" "es" "u1")
        (.ok ⟨200, "texto", "ES"⟩) (.ok [1, 2, 3]) "texto" =
      .ok (mkStartSession "b1" "url" "en" "es" "u1", []) :=
  translation_noop_no_clip (mkStartSession "b1" "url" "en" "es" "u1")
    ⟨200, "texto", "ES"⟩ (.ok [1, 2, 3]) "texto" (by decide)

/-- C8: in the target-language loop of `_handle_start`, an allocation
whose `create_bot` call fails contributes exactly one error message to
the control client and leaves the registry thread untouched: the state
passed on to the remaining allocations is the state from before the
failed one. -/
theorem start_failure_leaves_registry (st : ServerState)
    (user_id meeting_url source_lang tl e : String)
    (rest : List (String × Except String String)) :
    handleStart st user_id meeting_url source_lang ((tl, .error e) :: rest) =
      ((handleStart st user_id meeting_url source_lang rest).1,
       Effect.sendError ("Failed to create bot for " ++ tl.toUpper ++ ": " ++ e)
         :: (handleStart st user_id meeting_url source_lang rest).2) := by
  simp [handleStart, startOne]

/-- C9: an audio chunk whose participant name starts with "Translator"
is dropped before recognition: the session (in particular its ASR
stream map) is unchanged and no effect is performed — no stream is
created and no audio is forwarded. -/
theorem translator_audio_dropped (session : BotSession)
    (pid name b64 : String) (h : pyStartsWith name "Translator" = true) :
    handleAudioChunk session pid name b64 = (session, []) := by
  unfold handleAudioChunk
  simp [h]

theorem translator_audio_dropped_witness :
    handleAudioChunk (fallbackSession "b9") "p7" "Translator (ES)" "QUJD" =
      (fallbackSession "b9", []) :=
  translator_audio_dropped (fallbackSession "b9") "p7" "Translator (ES)" "QUJD" (by decide)

theorem mem_regLookup_le_countSets (reg : ListenerReg) (L : String) (cid : Nat)
    (h : cid ∈ regLookup reg L) : 1 ≤ countSets reg cid := by
  induction reg with
  | nil => simp [regLookup] at h
  | cons hd rest ih =>
    obtain ⟨l, cs⟩ := hd
    cases hl : (l == L) with
    | false =>
      rw [regLookup, if_neg (by simp [hl])] at h
      have := ih h
      simp only [countSets]
      omega
    | true =>
      rw [regLookup, if_pos (by simp [hl])] at h
      simp only [countSets, h, if_pos]
      omega

theorem two_regLookup_le_countSets (reg : ListenerReg) (L Lp : String) (cid : Nat)
    (hne : L ≠ Lp) (h1 : cid ∈ regLookup reg L) (h2 : cid ∈ regLookup reg Lp) :
    2 ≤ countSets reg cid := by
  induction reg with
  | nil => simp [regLookup] at h1
  | cons hd rest ih =>
    obtain ⟨l, cs⟩ := hd
    cases hl : (l == L) with
    | false =>
      rw [regLookup, if_neg (by simp [hl])] at h1
      cases hlp : (l == Lp) with
      | false =>
        rw [regLookup, if_neg (by simp [hlp])] at h2
        have := ih h1 h2
        simp only [countSets]
        omega
      | true =>
        rw [regLookup, if_pos (by simp [hlp])] at h2
        have := mem_regLookup_le_countSets rest L cid h1
        simp only [countSets, h2, if_pos]
        omega
    | true =>
      rw [regLookup, if_pos (by simp [hl])] at h1
      cases hlp : (l == Lp) with
      | false =>
        rw [regLookup, if_neg (by simp [hlp])] at h2
        have := mem_regLookup_le_countSets rest Lp cid h2
        simp only [countSets, h1, if_pos]
        omega
      | true =>
        exact absurd ((eq_of_beq hl).symm.trans (eq_of_beq hlp)) hne

theorem countSets_regAdd_other (reg : ListenerReg) (lang : String) (cid c : Nat)
    (h : c ≠ cid) : countSets (regAdd reg lang cid) c = countSets reg c := by
  induction reg with
  | nil => simp [regAdd, countSets, h]
  | cons hd rest ih =>
    obtain ⟨l, cs⟩ := hd
    cases hl : (l == lang) with
    | false => simp only [regAdd, hl, Bool.false_eq_true, if_false, countSets, ih]
    | true =>
      simp only [regAdd, hl, if_true, countSets, List.mem_cons]
      simp [h]

theorem countSets_regAdd_self_le (reg : ListenerReg) (lang : String) (cid : Nat) :
    countSets (regAdd reg lang cid) cid ≤ countSets reg cid + 1 := by
  induction reg with
  | nil => simp [regAdd, countSets]
  | cons hd rest ih =>
    obtain ⟨l, cs⟩ := hd
    cases hl : (l == lang) with
    | false =>
      simp only [regAdd, hl, Bool.false_eq_true, if_false, countSets]
      omega
    | true =>
      simp only [regAdd, hl, if_true, countSets, List.mem_cons]
      by_cases hc : cid ∈ cs
      · simp [hc]
      · simp [hc]; omega

theorem countSets_regRemove_le (reg : ListenerReg) (lang : String) (cid c : Nat) :
    countSets (regRemove reg lang cid) c ≤ countSets reg c := by
  induction reg with
  | nil => simp [regRemove]
  | cons hd rest ih =>
    obtain ⟨l, cs⟩ := hd
    cases hl : (l == lang) with
    | false =>
      simp only [regRemove, hl, Bool.false_eq_true, if_false, countSets]
      omega
    | true =>
      simp only [regRemove, hl, if_true, countSets]
      by_cases hf : c ∈ cs.filter (fun x => x != cid)
      · have hcs : c ∈ cs := List.mem_of_mem_filter hf
        simp [hf, hcs]
      · by_cases hcs : c ∈ cs
        · simp [hf, hcs]
        · simp [hf, hcs]

theorem freshRun_countSets (evs : List LEvent) (reg : ListenerReg)
    (hinv : ∀ c, countSets reg c ≤ 1) (hrun : freshRun reg evs = true) :
    ∀ c, countSets (runListeners reg evs) c ≤ 1 := by
  induction evs generalizing reg with
  | nil => simpa [runListeners] using hinv
  | cons e es ih =>
    cases e with
    | connect cid lang =>
      simp only [freshRun, Bool.and_eq_true, beq_iff_eq] at hrun
      obtain ⟨hfresh, hrest⟩ := hrun
      simp only [runListeners, lstep]
      apply ih (regAdd reg lang cid) ?_ hrest
      intro c
      by_cases hc : c = cid
      · subst hc
        have := countSets_regAdd_self_le reg lang c
        omega
      · rw [countSets_regAdd_other reg lang cid c hc]
        exact hinv c
    | disconnect cid lang =>
      simp only [freshRun] at hrun
      simp only [runListeners, lstep]
      exact ih (regRemove reg lang cid)
        (fun c => le_trans (countSets_regRemove_le reg lang cid c) (hinv c)) hrun

/-- C7: along any run of listener connect/disconnect events in which
every connecting WebSocket is a fresh connection (as in the server,
where each accepted connection object is new and `listen_handler` adds
it to exactly one language's set), a connection that would receive a
clip published for language `L` (i.e. is in `broadcast_audio`'s target
set for `L`) is not in the target set of any other language `Lp`, and
every connection belongs to at most one language's listener set. -/
theorem listener_isolation (evs : List LEvent) (L Lp : String) (cid : Nat)
    (hrun : freshRun [] evs = true) (hne : L ≠ Lp)
    (hmem : cid ∈ broadcastTargets (runListeners [] evs) L) :
    cid ∉ broadcastTargets (runListeners [] evs) Lp ∧
    countSets (runListeners [] evs) cid ≤ 1 := by
  have hinv := freshRun_countSets evs [] (fun c => by simp [countSets]) hrun
  refine ⟨?_, hinv cid⟩
  intro hmem2
  have h2 := two_regLookup_le_countSets (runListeners [] evs) L Lp cid hne hmem hmem2
  have h1 := hinv cid
  omega

theorem listener_isolation_witness :
    (2 : Nat) ∉ broadcastTargets (runListeners [] exListenerEvents) "es" ∧
    countSets (runListeners [] exListenerEvents) 2 ≤ 1 :=
  listener_isolation exListenerEvents "fr" "es" 2 (by decide) (by decide) (by decide)

/-- C10: the fallback session synthesized for an unknown bot id has the
empty owner identity, so (a) appending it to any registry leaves every
management client's snapshot unchanged for any non-empty user id — it
is invisible — and (b) a stop request for it from any non-empty user id
fails the ownership check with Forbidden, leaving the registry
untouched. -/
theorem fallback_session_unmanageable (bid uid : String) (st : ServerState)
    (hu : uid ≠ "") (hl : lookupSession st bid = some (fallbackSession bid)) :
    (fallbackSession bid).user_id = "" ∧
    (∀ ss : List (String × BotSession),
        sessionsSnapshot ⟨ss ++ [(bid, fallbackSession bid)]⟩ uid =
          sessionsSnapshot ⟨ss⟩ uid) ∧
    handleStop st bid uid =
      ⟨.forbidden, st, [Effect.sendError "Not authorized to stop this bot"]⟩ := by
  refine ⟨rfl, ?_, ?_⟩
  · intro ss
    have hne : (("" : String) == uid) = false := by
      cases h : ("" : String) == uid
      · rfl
      · exact absurd (eq_of_beq h).symm hu
    unfold sessionsSnapshot
    simp [List.filter_append, fallbackSession, hne]
  · exact handleStop_forbidden_of_ne st bid uid (fallbackSession bid) hl
      (fun h => hu h.symm)

theorem fallback_session_witness :
    (fallbackSession "b9").user_id = "" ∧
    sessionsSnapshot ⟨[] ++ [("b9", fallbackSession "b9")]⟩ "u1" =
      sessionsSnapshot ⟨[]⟩ "u1" ∧
    handleStop ⟨[("b9", fallbackSession "b9")]⟩ "b9" "u1" =
      ⟨.forbidden, ⟨[("b9", fallbackSession "b9")]⟩,
       [Effect.sendError "Not authorized to stop this bot"]⟩ :=
  ⟨(fallback_session_unmanageable "b9" "u1" ⟨[("b9", fallbackSession "b9")]⟩
      (by decide) (by decide)).1,
   (fallback_session_unmanageable "b9" "u1" ⟨[("b9", fallbackSession "b9")]⟩
      (by decide) (by decide)).2.1 [],
   (fallback_session_unmanageable "b9" "u1" ⟨[("b9", fallbackSession "b9")]⟩
      (by decide) (by decide)).2.2⟩
